import Mathlib

/-!
Shallow embedding of the i2cripper scripted-command interpreter (i2crip.c and
its header).  Pure functions of the C source are translated into Lean
functions; the process-wide mutable globals of the execution engine become an
explicit `ExecState` threaded through `execOne`/`runList`; machine integers
are modelled as `Nat`/`Int` with explicit `% 2^w` truncation at the points
where the C source casts; fallible operations return `Option`.  External
collaborators (the Linux i2c-dev transport, `fopen`, `usleep`) are modelled
by an `Env` of oracles plus an event trace; simulate mode (`g_simulate`)
short-circuits them exactly as the `..._If` wrapper functions do in the
source.
-/

namespace I2cRip

/-! ### Constants (from the header) -/

def MAX_READ_WRITE_SIZE : Nat := 64

def I2C_NO_BUS_SELECTED : Int := -1

def I2C_INVALID_SLAVE_ADDRESS : Nat := 0xFF

def I2C_MAX_BUSSES : Int := 64

/-! ### Machine-integer casts

`u8OfInt`/`u16OfInt` model the C casts `(__u8)num` / `(__u16)num` applied to
the `long num` produced by `strtol`; `castCInt` models `(int)num` (32-bit
two's-complement wrap, as on the targeted platform); `u8OfNat`/`u16OfNat`
model narrowing an unsigned value on assignment to a `__u8`/`__u16` field. -/

def u8OfInt (n : Int) : Nat := (n % 256).toNat

def u16OfInt (n : Int) : Nat := (n % 65536).toNat

def u8OfNat (n : Nat) : Nat := n % 256

def u16OfNat (n : Nat) : Nat := n % 65536

def castCInt (n : Int) : Int := Int.bmod n (2 ^ 32)

/-! ### Command tags (enum `i2cRipCmds_t`)

The execution engine in i2crip.c names the fourth tag `I2C_RIP_ERROR_DETECT`;
the header and lookup table name the same enum slot `I2C_RIP_SUPRESS_ERRORS`.
We use the header's name. -/

inductive i2cRipCmds where
  | I2C_RIP_INVALID
  | I2C_RIP_SET_BUS
  | I2C_RIP_SET_ID
  | I2C_RIP_DELAY
  | I2C_RIP_SUPRESS_ERRORS
  | I2C_RIP_LOG_TO_FILE
  | I2C_RIP_LOG_TO_TERM
  | I2C_RIP_8_WRITE_BYTE
  | I2C_RIP_16_WRITE_BYTE
  | I2C_RIP_8_WRITE_WORD
  | I2C_RIP_16_WRITE_WORD
  | I2C_RIP_8_READ_BYTE
  | I2C_RIP_16_READ_BYTE
  | I2C_RIP_8_READ_WORD
  | I2C_RIP_16_READ_WORD
  | I2C_RIP_8_VERIFY_BYTE
  | I2C_RIP_16_VERIFY_BYTE
  | I2C_RIP_8_VERIFY_WORD
  | I2C_RIP_16_VERIFY_WORD
deriving DecidableEq, Repr

/-! ### Command payload (union `i2cRipCmdData_t`)

The C union is only ever read back through the same view that the parser
wrote for the command's tag, so it is modelled as one record holding the
`m_single` view and the `m_addr`/`m_data` fields of the active sized view
(already truncated to the width the parser's cast produced).  Uninitialised
union memory (e.g. `m_data` of a read command, whose table arity is 1) is
modelled as 0. -/

structure i2cRipCmdData where
  m_single : Int := 0
  m_addr : Nat := 0
  m_data : Nat := 0
deriving DecidableEq, Repr

instance : Inhabited i2cRipCmdData := ⟨{}⟩

structure i2cRipCmdStruct where
  m_cmd : i2cRipCmds := .I2C_RIP_INVALID
  m_data : i2cRipCmdData := {}
  m_isValid : Bool := false
deriving DecidableEq, Repr

instance : Inhabited i2cRipCmdStruct := ⟨{}⟩

/-! ### Command lookup table (`g_cmdLookUpTable`) -/

structure i2cRipCmdsLookUp where
  m_cmd : i2cRipCmds
  m_numArgs : Nat
  m_string : String
deriving DecidableEq, Repr

def g_cmdLookUpTable : List i2cRipCmdsLookUp := [
  ⟨.I2C_RIP_SET_BUS, 1, "SET-BUS"⟩,
  ⟨.I2C_RIP_SET_ID, 1, "SET-ID"⟩,
  ⟨.I2C_RIP_DELAY, 1, "DELAY"⟩,
  ⟨.I2C_RIP_SUPRESS_ERRORS, 1, "SUPRESS-ERRORS"⟩,
  ⟨.I2C_RIP_LOG_TO_FILE, 1, "LOG-FILE"⟩,
  ⟨.I2C_RIP_LOG_TO_TERM, 1, "LOG-TERM"⟩,
  ⟨.I2C_RIP_8_WRITE_BYTE, 2, "WB-8"⟩,
  ⟨.I2C_RIP_16_WRITE_BYTE, 2, "WB-16"⟩,
  ⟨.I2C_RIP_8_WRITE_WORD, 2, "WW-8"⟩,
  ⟨.I2C_RIP_16_WRITE_WORD, 2, "WW-16"⟩,
  ⟨.I2C_RIP_8_READ_BYTE, 1, "RB-8"⟩,
  ⟨.I2C_RIP_16_READ_BYTE, 1, "RB-16"⟩,
  ⟨.I2C_RIP_8_READ_WORD, 1, "RW-8"⟩,
  ⟨.I2C_RIP_16_READ_WORD, 1, "RW-16"⟩,
  ⟨.I2C_RIP_8_VERIFY_BYTE, 2, "VB-8"⟩,
  ⟨.I2C_RIP_16_VERIFY_BYTE, 2, "VB-16"⟩,
  ⟨.I2C_RIP_8_VERIFY_WORD, 2, "VW-8"⟩,
  ⟨.I2C_RIP_16_VERIFY_WORD, 2, "VW-16"⟩]

/-- Resolution of a mnemonic token against the table: linear scan with exact
`strcmp` equality, first match wins (as in `parseLine`). -/
def lookUpCmd (t : String) : Option i2cRipCmdsLookUp :=
  g_cmdLookUpTable.find? (fun e => e.m_string = t)

/-! ### Tokenization

`parseLine` scans its buffer character by character, splitting on `' '`,
`'\t'` and the terminating `'\0'` and skipping empty runs; we model the
scanned buffer content as the script line's string (ASCII, one `Char` per
byte).  Token length is re-checked against the 20-byte `subString` buffer at
each use site, as in the source. -/

def tokenizeAux : List Char → List Char → List String
  | [], [] => []
  | [], acc => [String.mk acc.reverse]
  | c :: cs, acc =>
    if c = ' ' ∨ c = '\t' then
      match acc with
      | [] => tokenizeAux cs []
      | _ => String.mk acc.reverse :: tokenizeAux cs []
    else tokenizeAux cs (c :: acc)

def tokenize (s : String) : List String := tokenizeAux s.toList []

/-! ### Numeric argument parsing

Models the `strtol` calls of `parseLine` together with its
`*endptr != '\0'` full-consumption check: an optional sign followed by at
least one digit of the base, consuming the whole token.  (The `strtol`
corner cases not exercised by script tokens - embedded vertical whitespace,
`LONG_MAX` clamping, a redundant `0x` after the stripped prefix - are not
modelled.) -/

def decDigit (c : Char) : Bool := '0' ≤ c ∧ c ≤ '9'

def hexDigit (c : Char) : Bool :=
  ('0' ≤ c ∧ c ≤ '9') ∨ ('a' ≤ c ∧ c ≤ 'f') ∨ ('A' ≤ c ∧ c ≤ 'F')

def hexVal (c : Char) : Nat :=
  if '0' ≤ c ∧ c ≤ '9' then c.toNat - '0'.toNat
  else if 'a' ≤ c ∧ c ≤ 'f' then c.toNat - 'a'.toNat + 10
  else c.toNat - 'A'.toNat + 10

def digitsToNat (base : Nat) (l : List Char) : Nat :=
  l.foldl (fun acc c => acc * base + hexVal c) 0

def strtolCore (isDigit : Char → Bool) (base : Nat) (l : List Char) : Option Int :=
  match l with
  | '-' :: rest =>
    if rest ≠ [] ∧ rest.all isDigit then some (-(digitsToNat base rest : Int)) else none
  | '+' :: rest =>
    if rest ≠ [] ∧ rest.all isDigit then some (digitsToNat base rest : Int) else none
  | rest =>
    if rest ≠ [] ∧ rest.all isDigit then some (digitsToNat base rest : Int) else none

/-- The argument-conversion logic of `parseLine`: tokens longer than two
characters beginning `0x` are parsed as hexadecimal from the third character
on; everything else is parsed as decimal. -/
def parseNumber (t : String) : Option Int :=
  let cs := t.toList
  if 2 < cs.length ∧ cs.getD 0 ' ' = '0' ∧ cs.getD 1 ' ' = 'x' then
    strtolCore hexDigit 16 (cs.drop 2)
  else
    strtolCore decDigit 10 cs

/-! ### Argument assignment (the two `switch(argNum)` blocks of `parseLine`)

Each case mirrors one assignment into the command union, including the
mismatched casts of the source: the 8-bit-address word commands assign
`(__u16)num` to a `__u8` field, and the 16-bit-address byte commands assign
`(__u8)num` to a `__u16` field. -/

def applyArg0 (cmd : i2cRipCmds) (num : Int) (d : i2cRipCmdData) : Option i2cRipCmdData :=
  match cmd with
  | .I2C_RIP_SET_BUS | .I2C_RIP_SET_ID | .I2C_RIP_DELAY
  | .I2C_RIP_SUPRESS_ERRORS | .I2C_RIP_LOG_TO_FILE | .I2C_RIP_LOG_TO_TERM =>
    some { d with m_single := castCInt num }
  | .I2C_RIP_8_WRITE_BYTE | .I2C_RIP_8_READ_BYTE | .I2C_RIP_8_VERIFY_BYTE =>
    some { d with m_addr := u8OfInt num }
  | .I2C_RIP_8_WRITE_WORD | .I2C_RIP_8_READ_WORD | .I2C_RIP_8_VERIFY_WORD =>
    some { d with m_addr := u8OfNat (u16OfInt num) }
  | .I2C_RIP_16_WRITE_BYTE | .I2C_RIP_16_READ_BYTE | .I2C_RIP_16_VERIFY_BYTE =>
    some { d with m_addr := u16OfNat (u8OfInt num) }
  | .I2C_RIP_16_WRITE_WORD | .I2C_RIP_16_READ_WORD | .I2C_RIP_16_VERIFY_WORD =>
    some { d with m_addr := u16OfInt num }
  | .I2C_RIP_INVALID => none

def applyArg1 (cmd : i2cRipCmds) (num : Int) (d : i2cRipCmdData) : Option i2cRipCmdData :=
  match cmd with
  | .I2C_RIP_8_WRITE_BYTE | .I2C_RIP_8_READ_BYTE | .I2C_RIP_8_VERIFY_BYTE =>
    some { d with m_data := u8OfInt num }
  | .I2C_RIP_8_WRITE_WORD | .I2C_RIP_8_READ_WORD | .I2C_RIP_8_VERIFY_WORD =>
    some { d with m_data := u16OfInt num }
  | .I2C_RIP_16_WRITE_BYTE | .I2C_RIP_16_READ_BYTE | .I2C_RIP_16_VERIFY_BYTE =>
    some { d with m_data := u8OfInt num }
  | .I2C_RIP_16_WRITE_WORD | .I2C_RIP_16_READ_WORD | .I2C_RIP_16_VERIFY_WORD =>
    some { d with m_data := u16OfInt num }
  | _ => none

def applyArg (cmd : i2cRipCmds) (argNum : Nat) (num : Int) (d : i2cRipCmdData) :
    Option i2cRipCmdData :=
  match argNum with
  | 0 => applyArg0 cmd num d
  | 1 => applyArg1 cmd num d
  | _ => none

/-- Processing of the argument tokens after the mnemonic: per token, the
20-byte `subString` length check, the numeric conversion, then the
`switch(argNum)` assignment; returns the final `argNum` and payload. -/
def parseArgs (cmd : i2cRipCmds) : List String → Nat → i2cRipCmdData →
    Option (Nat × i2cRipCmdData)
  | [], argNum, d => some (argNum, d)
  | t :: ts, argNum, d =>
    if 20 ≤ t.length then none
    else
      match parseNumber t with
      | none => none
      | some num =>
        match applyArg cmd argNum num d with
        | none => none
        | some d2 => parseArgs cmd ts (argNum + 1) d2

/-- One line of script text parsed to a command, `none` being the hard parse
failure (`parseLine` returning 0).  A line with no tokens parses successfully
to the `I2C_RIP_INVALID` sentinel with `m_isValid` false; a resolved line is
marked valid by the final `m_cmd != I2C_RIP_INVALID` check.  (This models
`parseLine` as called by the loader: the buffer holds a complete
`'\0'`-terminated line shorter than the 100-byte buffer.) -/
def parseLine (line : String) : Option i2cRipCmdStruct :=
  match tokenize line with
  | [] => some {}
  | t :: ts =>
    if 20 ≤ t.length then none
    else
      match lookUpCmd t with
      | none => none
      | some e =>
        match parseArgs e.m_cmd ts 0 {} with
        | none => none
        | some (argNum, d) =>
          if argNum = e.m_numArgs then
            some { m_cmd := e.m_cmd, m_data := d,
                   m_isValid := decide (e.m_cmd ≠ .I2C_RIP_INVALID) }
          else none

/-! ### Script loader (`getLine` + `inputFileParser`)

The loader's input is modelled as the list of line buffers that successive
`getLine` calls yield for the script file (carriage returns already dropped,
line terminators stripped; every readable file yields at least one entry,
the last one coinciding with end-of-file).  A `getLine` failure - no
terminator within the 100-byte buffer - corresponds to a line of length at
least 100. -/

def pass1 : List String → Nat → Option Nat
  | [], _ => some 0
  | l :: ls, idx =>
    if 100 ≤ l.length then none
    else
      match parseLine l with
      | none => none
      | some c =>
        if 100000 ≤ idx then none
        else (pass1 ls (idx + 1)).map (fun n => (if c.m_isValid then 1 else 0) + n)

def pass2 : List String → Nat → Option (List i2cRipCmdStruct)
  | _, 0 => some []
  | [], _ + 1 => some []
  | l :: ls, cap + 1 =>
    if 100 ≤ l.length then none
    else
      match parseLine l with
      | none => none
      | some c =>
        if c.m_isValid then (pass2 ls cap).map (fun r => c :: r)
        else pass2 ls (cap + 1)

/-- The two-pass loader `inputFileParser`: pass 1 counts valid commands and
fails the load on any bad line or on more than 100000 lines; the `lines <= 0`
empty-file check follows; pass 2 re-reads the same lines and materialises up
to the counted number of valid commands, in order.  (The `malloc` of the
command list is modelled as succeeding.)  `none` is a failed load with no
commands. -/
def inputFileParser (ls : List String) : Option (List i2cRipCmdStruct) :=
  match pass1 ls 0 with
  | none => none
  | some numOfCmds =>
    if ls.length = 0 then none
    else pass2 ls numOfCmds

/-- A line that contributes a command to the loaded list: it parses and the
parsed command is marked valid (its mnemonic resolved to a non-`Invalid`
tag). -/
def lineYieldsCmd (l : String) : Bool :=
  match parseLine l with
  | some c => c.m_isValid
  | none => false

/-- A line whose first token resolves against the command table. -/
def resolvesKnownMnemonic (l : String) : Bool :=
  match tokenize l with
  | [] => false
  | t :: _ => (lookUpCmd t).isSome

/-- The commands a script's lines denote, in script order. -/
def validCmds (ls : List String) : List i2cRipCmdStruct :=
  ls.filterMap (fun l =>
    match parseLine l with
    | some c => if c.m_isValid then some c else none
    | none => none)

/-! ### Execution environment

The external collaborators of the execution engine: the i2c-dev transport
(`open_i2c_dev`, the `I2C_FUNCS` capability ioctl, `set_slave_addr`, the
`I2C_RDWR` ioctl) and the log-file `fopen`, abstracted as oracles, plus the
`g_simulate` flag.  The `..._If` wrappers below consult the oracles only in
real mode, exactly as the source short-circuits on `g_simulate`. -/

structure Env where
  simulate : Bool
  open_dev : Int → Int
  funcs_ok : Int → Bool
  set_slave : Int → Int → Int
  rdwr_sent : Int → Nat → Int
  rdwr_read : Int → Nat → List Nat → List Nat
  log_open_ok : Bool

/-- Calls made into the external transport layer (and the `usleep`
suspension), recorded as an event trace.  An event is recorded at each entry
into a transport interface function, whether or not simulate mode
short-circuits the real system call inside it. -/
inductive RunEvent where
  | openDev (bus : Int)
  | setSlave (file : Int) (addr : Int)
  | rdwr (file : Int) (payload : List Nat)
  | sleep (usec : Int)
deriving DecidableEq, Repr

def open_i2c_dev_If (env : Env) (i2cBus : Int) : Int :=
  if env.simulate then 0 else env.open_dev i2cBus

def check_funcs (env : Env) (file : Int) : Int :=
  if env.simulate then 0 else if env.funcs_ok file then 0 else -1

def set_slave_addr_If (env : Env) (file : Int) (address : Int) : Int :=
  if env.simulate then 0 else env.set_slave file address

/-- The register-address bytes `i2cRead`/`i2cWrite` place on the wire.  For a
2-byte register address the source computes `(__u8)(dreg & 0xFF00) >> 8`,
casting before shifting, so the high byte sent is always 0; the model keeps
that expression as written. -/
def regBuffBytes (dreg : Nat) (dregSize : Nat) : List Nat :=
  match dregSize with
  | 2 => [u8OfNat (dreg &&& 0xFF00) >>> 8, u8OfNat (dreg &&& 0xFF)]
  | 1 => [u8OfNat (dreg &&& 0xFF)]
  | _ => []

/-- `i2cRead`: returns success, the data buffer after the call, and the
transport events.  `reg` is the slave address; the `0 > dataSize` half of the
source's check is vacuous for `Nat`. -/
def i2cRead (env : Env) (file : Int) (reg : Int) (dreg : Nat) (dregSize : Nat)
    (data : List Nat) (dataSize : Nat) : Bool × List Nat × List RunEvent :=
  if reg < 0 ∨ 0xff < reg then (false, data, [])
  else if dregSize ≠ 1 ∧ dregSize ≠ 2 then (false, data, [])
  else if 2 < dataSize then (false, data, [])
  else
    let res : Int × List Nat :=
      if env.simulate then ((2 : Int), data)
      else (env.rdwr_sent file 2, env.rdwr_read file dataSize data)
    if res.1 < 2 then (false, res.2, [RunEvent.rdwr file (regBuffBytes dreg dregSize)])
    else (true, res.2, [RunEvent.rdwr file (regBuffBytes dreg dregSize)])

/-- `i2cWrite`: returns success and the transport events; the single message
carries the register-address bytes followed by the data bytes. -/
def i2cWrite (env : Env) (file : Int) (reg : Int) (dreg : Nat) (dregSize : Nat)
    (data : List Nat) (dataSize : Nat) : Bool × List RunEvent :=
  if reg < 0 ∨ 0xff < reg then (false, [])
  else if dregSize ≠ 1 ∧ dregSize ≠ 2 then (false, [])
  else if 2 < dataSize then (false, [])
  else
    let buff := regBuffBytes dreg dregSize ++ data.take dataSize
    let sent : Int := if env.simulate then 1 else env.rdwr_sent file 1
    if sent < 1 then (false, [RunEvent.rdwr file buff])
    else (true, [RunEvent.rdwr file buff])

/-! ### Execution state (the engine's globals and `main`'s locals) -/

structure i2cBusConnection where
  m_file : Int := 0
  m_isConnected : Bool := false
  m_slaveAddress : Nat := I2C_INVALID_SLAVE_ADDRESS
deriving DecidableEq, Repr

instance : Inhabited i2cBusConnection := ⟨{}⟩

structure ExecState where
  g_supressErrors : Bool
  g_logToFile : Bool
  g_logToTerm : Bool
  g_logFileOpen : Bool
  g_i2cBusFiles : List i2cBusConnection
  activeBus : Int
deriving DecidableEq, Repr

/-- The bus record the engine's `g_i2cBusFiles[activeBus]` accesses denote
(only consulted once `activeBus` is known to be in range). -/
def activeConn (st : ExecState) : i2cBusConnection :=
  st.g_i2cBusFiles.getD st.activeBus.toNat {}

/-- State at run start: globals at their initialisers, all 64 buses
disconnected with the invalid-slave sentinel, no bus selected. -/
def initState : ExecState where
  g_supressErrors := false
  g_logToFile := false
  g_logToTerm := true
  g_logFileOpen := false
  g_i2cBusFiles := List.replicate 64 {}
  activeBus := I2C_NO_BUS_SELECTED

/-- Outcome of executing one command: the updated state, the per-command
`error` flag, and the events emitted. -/
structure StepResult where
  s : ExecState
  error : Bool
  events : List RunEvent
deriving Repr

/-- The twelve I/O command shapes: register-address size in bytes, data size
in bytes, and operation (the inner `switch(cmd)` of the I/O block). -/
inductive IoOp where
  | wr
  | rd
  | vf
deriving DecidableEq, Repr

def ioShape : i2cRipCmds → Option (Nat × Nat × IoOp)
  | .I2C_RIP_8_WRITE_BYTE => some (1, 1, .wr)
  | .I2C_RIP_8_READ_BYTE => some (1, 1, .rd)
  | .I2C_RIP_8_VERIFY_BYTE => some (1, 1, .vf)
  | .I2C_RIP_8_WRITE_WORD => some (1, 2, .wr)
  | .I2C_RIP_8_READ_WORD => some (1, 2, .rd)
  | .I2C_RIP_8_VERIFY_WORD => some (1, 2, .vf)
  | .I2C_RIP_16_WRITE_BYTE => some (2, 1, .wr)
  | .I2C_RIP_16_READ_BYTE => some (2, 1, .rd)
  | .I2C_RIP_16_VERIFY_BYTE => some (2, 1, .vf)
  | .I2C_RIP_16_WRITE_WORD => some (2, 2, .wr)
  | .I2C_RIP_16_READ_WORD => some (2, 2, .rd)
  | .I2C_RIP_16_VERIFY_WORD => some (2, 2, .vf)
  | _ => none

def isIoCmd (cmd : i2cRipCmds) : Bool := (ioShape cmd).isSome

def isVerifyCmd (cmd : i2cRipCmds) : Bool :=
  match cmd with
  | .I2C_RIP_8_VERIFY_BYTE | .I2C_RIP_8_VERIFY_WORD
  | .I2C_RIP_16_VERIFY_BYTE | .I2C_RIP_16_VERIFY_WORD => true
  | _ => false

/-- The byte image of the command's stored data field that `main`'s copy loop
places into `readWriteDate` and `varData` (host little-endian byte order, one
byte per `dataSize`). -/
def dataBytes (dataSize : Nat) (d : Nat) : List Nat :=
  match dataSize with
  | 1 => [d % 256]
  | 2 => [d % 256, d / 256 % 256]
  | _ => []

/-- The body of the I/O block after the three state prechecks pass: size
selection, the `MAX_READ_WRITE_SIZE` guard, buffer fill, and dispatch to
write / read / verify. -/
def execIoBody (env : Env) (st : ExecState) (cmd : i2cRipCmds) (d : i2cRipCmdData) :
    StepResult :=
  match ioShape cmd with
  | none => { s := st, error := true, events := [] }
  | some (dAddrSize, dataSize, op) =>
    let conn := activeConn st
    let dAddress := d.m_addr
    let bytes := dataBytes dataSize d.m_data
    if MAX_READ_WRITE_SIZE ≤ dataSize then { s := st, error := true, events := [] }
    else
      match op with
      | .wr =>
        let r := i2cWrite env conn.m_file (conn.m_slaveAddress : Int) dAddress dAddrSize
          bytes dataSize
        { s := st, error := !r.1, events := r.2 }
      | .rd =>
        let r := i2cRead env conn.m_file (conn.m_slaveAddress : Int) dAddress dAddrSize
          bytes dataSize
        { s := st, error := !r.1, events := r.2.2 }
      | .vf =>
        let r := i2cRead env conn.m_file (conn.m_slaveAddress : Int) dAddress dAddrSize
          bytes dataSize
        if !r.1 then { s := st, error := true, events := r.2.2 }
        else if r.2.1.take dataSize = bytes.take dataSize then
          { s := st, error := false, events := r.2.2 }
        else { s := st, error := true, events := r.2.2 }

/-- The shared I/O command block of `main`: active-bus range check, connection
check, slave-address check, then the body. -/
def execIoCmd (env : Env) (st : ExecState) (cmd : i2cRipCmds) (d : i2cRipCmdData) :
    StepResult :=
  if st.activeBus < 0 ∨ I2C_MAX_BUSSES ≤ st.activeBus then
    { s := st, error := true, events := [] }
  else if (activeConn st).m_isConnected = false then
    { s := st, error := true, events := [] }
  else if (activeConn st).m_slaveAddress = I2C_INVALID_SLAVE_ADDRESS then
    { s := st, error := true, events := [] }
  else execIoBody env st cmd d

/-- The `I2C_RIP_SET_BUS` case of `main`'s switch. -/
def execSetBus (env : Env) (st : ExecState) (d : i2cRipCmdData) : StepResult :=
  let i2cBus := d.m_single
  if i2cBus < 0 ∨ I2C_MAX_BUSSES ≤ i2cBus then { s := st, error := true, events := [] }
  else
    let bi := i2cBus.toNat
    let conn := st.g_i2cBusFiles.getD bi {}
    if conn.m_isConnected then { s := { st with activeBus := i2cBus }, error := false, events := [] }
    else
      let file := open_i2c_dev_If env i2cBus
      let st1 := { st with g_i2cBusFiles := st.g_i2cBusFiles.set bi { conn with m_file := file } }
      if file < 0 then { s := st1, error := true, events := [RunEvent.openDev i2cBus] }
      else if check_funcs env file ≠ 0 then
        { s := st1, error := true, events := [RunEvent.openDev i2cBus] }
      else
        let conn2 : i2cBusConnection :=
          { m_file := file, m_isConnected := true,
            m_slaveAddress := I2C_INVALID_SLAVE_ADDRESS }
        let st2 :=
          { st1 with g_i2cBusFiles := st1.g_i2cBusFiles.set bi conn2, activeBus := i2cBus }
        { s := st2, error := false, events := [RunEvent.openDev i2cBus] }

/-- State update writing `v` to the active bus's slave-address field
(`g_i2cBusFiles[activeBus].m_slaveAddress = v`). -/
def writeSlave (st : ExecState) (v : Nat) : ExecState :=
  let conn2 := { activeConn st with m_slaveAddress := v }
  { st with g_i2cBusFiles := st.g_i2cBusFiles.set st.activeBus.toNat conn2 }

/-- The `I2C_RIP_SET_ID` case of `main`'s switch: on transport success the
active bus's `__u8` slave-address field receives the `int` argument,
truncating it to its low 8 bits; on transport failure the field is reset to
the invalid sentinel and the command errors. -/
def execSetId (env : Env) (st : ExecState) (d : i2cRipCmdData) : StepResult :=
  if st.activeBus < 0 ∨ I2C_MAX_BUSSES ≤ st.activeBus then
    { s := st, error := true, events := [] }
  else if (activeConn st).m_isConnected = false then
    { s := st, error := true, events := [] }
  else if set_slave_addr_If env (activeConn st).m_file d.m_single ≠ 0 then
    { s := writeSlave st I2C_INVALID_SLAVE_ADDRESS, error := true,
      events := [RunEvent.setSlave (activeConn st).m_file d.m_single] }
  else
    { s := writeSlave st (u8OfInt d.m_single), error := false,
      events := [RunEvent.setSlave (activeConn st).m_file d.m_single] }

/-- One iteration of `main`'s command loop: the `switch(cmd)` dispatch.  Note
the source's quirks, kept as-is: a non-positive `DELAY` logs an error message
but raises no error and instead assigns `g_supressErrors = 1`; the
suppression command maps argument 0 to `g_supressErrors = 1` and nonzero to
`g_supressErrors = 0`; a failed log-file `fopen` raises no error; the source
never sets `g_logFileOpen`. -/
def execOne (env : Env) (st : ExecState) (c : i2cRipCmdStruct) : StepResult :=
  match c.m_cmd with
  | .I2C_RIP_SET_BUS => execSetBus env st c.m_data
  | .I2C_RIP_SET_ID => execSetId env st c.m_data
  | .I2C_RIP_DELAY =>
    if c.m_data.m_single ≤ 0 then
      { s := { st with g_supressErrors := true }, error := false, events := [] }
    else
      { s := st, error := false,
        events := [RunEvent.sleep (castCInt (c.m_data.m_single * 1000))] }
  | .I2C_RIP_SUPRESS_ERRORS =>
    if c.m_data.m_single = 0 then
      { s := { st with g_supressErrors := true }, error := false, events := [] }
    else
      { s := { st with g_supressErrors := false }, error := false, events := [] }
  | .I2C_RIP_LOG_TO_FILE =>
    if c.m_data.m_single = 0 then
      { s := { st with g_logToFile := false }, error := false, events := [] }
    else
      if st.g_logFileOpen = false ∧ env.log_open_ok = false then
        { s := { st with g_logToFile := false }, error := false, events := [] }
      else
        { s := { st with g_logToFile := true }, error := false, events := [] }
  | .I2C_RIP_LOG_TO_TERM =>
    if c.m_data.m_single = 0 then
      { s := { st with g_logToTerm := false }, error := false, events := [] }
    else
      { s := { st with g_logToTerm := true }, error := false, events := [] }
  | .I2C_RIP_INVALID => { s := st, error := true, events := [] }
  | cmd => execIoCmd env st cmd c.m_data

/-- The command loop's error policy, run to completion: after each command,
`if(error){ if(!g_supressErrors) break; } error = 0;`.  Returns the final
state and whether the run stopped on an unsuppressed error (the `error` value
reaching the trailing `Exiting:` message). -/
def runList (env : Env) : ExecState → List i2cRipCmdStruct → ExecState × Bool
  | st, [] => (st, false)
  | st, c :: cs =>
    if (execOne env st c).error = true ∧ (execOne env st c).s.g_supressErrors = false
    then ((execOne env st c).s, true)
    else runList env (execOne env st c).s cs

/-- Number of commands of the list the loop executes before stopping (the
stopping command included). -/
def runCount (env : Env) : ExecState → List i2cRipCmdStruct → Nat
  | _, [] => 0
  | st, c :: cs =>
    if (execOne env st c).error = true ∧ (execOne env st c).s.g_supressErrors = false
    then 1
    else 1 + runCount env (execOne env st c).s cs

/-- The state the loop holds before executing the command at a position
(states flow through every earlier command, errors notwithstanding). -/
def execStateAt (env : Env) : ExecState → List i2cRipCmdStruct → Nat → ExecState
  | st, _, 0 => st
  | st, [], _ + 1 => st
  | st, c :: cs, i + 1 => execStateAt env (execOne env st c).s cs i

/-- `main` from the input-file parse onward: its exit status together with
the run outcome the trailing `Exiting: I2cRip ...` line reports (`none` when
execution never starts).  A failed load prints a message and calls `EXIT(0)`;
a declined confirmation prompt calls `EXIT(0)`; a completed run calls
`EXIT(0)`. -/
def mainRun (env : Env) (fileLines : List String) (yes : Bool) (userAck : Bool) :
    Int × Option Bool :=
  match inputFileParser fileLines with
  | none => (0, none)
  | some cmds =>
    if yes = false ∧ userAck = false then (0, none)
    else ((0 : Int), some (runList env initState cmds).2)

/-! ### Concrete instances for witnesses -/

/-- A simulate-mode run configuration; the real-transport oracles are never
consulted when `simulate` is true. -/
def simEnv : Env where
  simulate := true
  open_dev := fun _ => -1
  funcs_ok := fun _ => false
  set_slave := fun _ _ => -1
  rdwr_sent := fun _ _ => -1
  rdwr_read := fun _ _ b => b
  log_open_ok := false

def mkSingleCmd (cmd : i2cRipCmds) (n : Int) : i2cRipCmdStruct :=
  { m_cmd := cmd, m_data := { m_single := n }, m_isValid := true }

/-- A state with bus 1 opened and selected, slave address not yet set (as
after a successful simulate-mode `SET-BUS 1` from `initState`). -/
def stBus1 : ExecState :=
  { initState with
      g_i2cBusFiles := initState.g_i2cBusFiles.set 1
        { m_file := 0, m_isConnected := true,
          m_slaveAddress := I2C_INVALID_SLAVE_ADDRESS },
      activeBus := 1 }

/-- `stBus1` with slave address 0x50 selected on bus 1. -/
def stBus1Slave : ExecState :=
  { initState with
      g_i2cBusFiles := initState.g_i2cBusFiles.set 1
        { m_file := 0, m_isConnected := true, m_slaveAddress := 0x50 },
      activeBus := 1 }

/-! ### Derived notions used by theorem statements -/

/-- Width of the parser's effective truncation of the first (register
address) argument, per command tag: the mismatched casts make it 8 bits for
all I/O commands except the 16-bit-address word commands. -/
def addrFieldBound : i2cRipCmds → Nat
  | .I2C_RIP_8_WRITE_BYTE | .I2C_RIP_8_READ_BYTE | .I2C_RIP_8_VERIFY_BYTE => 256
  | .I2C_RIP_8_WRITE_WORD | .I2C_RIP_8_READ_WORD | .I2C_RIP_8_VERIFY_WORD => 256
  | .I2C_RIP_16_WRITE_BYTE | .I2C_RIP_16_READ_BYTE | .I2C_RIP_16_VERIFY_BYTE => 256
  | .I2C_RIP_16_WRITE_WORD | .I2C_RIP_16_READ_WORD | .I2C_RIP_16_VERIFY_WORD => 65536
  | _ => 1

/-- Width of the parser's truncation of the data argument, per command tag:
8 bits for byte commands, 16 bits for word commands. -/
def dataFieldBound : i2cRipCmds → Nat
  | .I2C_RIP_8_WRITE_BYTE | .I2C_RIP_8_READ_BYTE | .I2C_RIP_8_VERIFY_BYTE => 256
  | .I2C_RIP_16_WRITE_BYTE | .I2C_RIP_16_READ_BYTE | .I2C_RIP_16_VERIFY_BYTE => 256
  | .I2C_RIP_8_WRITE_WORD | .I2C_RIP_8_READ_WORD | .I2C_RIP_8_VERIFY_WORD => 65536
  | .I2C_RIP_16_WRITE_WORD | .I2C_RIP_16_READ_WORD | .I2C_RIP_16_VERIFY_WORD => 65536
  | _ => 1

/-- The step the command loop takes at position `i` of the list when it gets
there: executing command `i` in the state accumulated over commands
`0..i-1`. -/
def stepAt (env : Env) (st : ExecState) (L : List i2cRipCmdStruct) (i : Nat) : StepResult :=
  execOne env (execStateAt env st L i) (L.getD i {})

/-- The loop's stopping condition taken after the command at position `i`:
the command errored and suppression is off in the post-command state. -/
def stopsAt (env : Env) (st : ExecState) (L : List i2cRipCmdStruct) (i : Nat) : Prop :=
  (stepAt env st L i).error = true ∧ (stepAt env st L i).s.g_supressErrors = false

/-! ## Theorems -/

/-! ### Helper lemmas -/

theorem u8OfInt_lt (n : Int) : u8OfInt n < 256 := by
  unfold u8OfInt
  omega

theorem u16OfInt_lt (n : Int) : u16OfInt n < 65536 := by
  unfold u16OfInt
  omega

theorem u8OfNat_lt (n : Nat) : u8OfNat n < 256 := Nat.mod_lt n (by omega)

theorem u16OfNat_lt (n : Nat) : u16OfNat n < 65536 := Nat.mod_lt n (by omega)

theorem getD_set_self {α : Type} (l : List α) (i : Nat) (a d : α) (h : i < l.length) :
    (l.set i a).getD i d = a := by
  induction l generalizing i with
  | nil => simp at h
  | cons x xs ih =>
    cases i with
    | zero => rfl
    | succ j => exact ih j (by simpa using h)

/-! ### C1: the error-suppression command -/

/-- Claim C1: executing the error-suppression command with argument 1 is
claimed to enable continue-past-errors mode and argument 0 to enable
stop-on-first-error mode.  The code has it the other way around: this
theorem evaluates the suppression case of `main`'s switch and shows that
argument 1 clears `g_supressErrors` (stop on first error) and argument 0
sets it (continue past errors); in every state the command itself succeeds
and changes nothing but the suppression flag.  This contradicts the
repository's own README (`SUPPRESS-ERRORS [1|0]: Enable (1) to suppress
errors`) and the example script's comment, so the code, not the claim, is
wrong. -/
theorem suppressErrors_inverted (env : Env) (st : ExecState) :
    execOne env st (mkSingleCmd .I2C_RIP_SUPRESS_ERRORS 1) =
      { s := { st with g_supressErrors := false }, error := false, events := [] } ∧
    execOne env st (mkSingleCmd .I2C_RIP_SUPRESS_ERRORS 0) =
      { s := { st with g_supressErrors := true }, error := false, events := [] } :=
  ⟨rfl, rfl⟩

/-! ### C2: Delay with non-positive argument -/

/-- Claim C2: `Delay(ms)` with `ms <= 0` is claimed to produce a suppressible
per-command error and leave the context (notably the suppression flag)
unchanged.  The code's `I2C_RIP_DELAY` case instead logs an error message,
raises no error at all, and assigns `g_supressErrors = 1` (an apparent
copy-paste slip of `error = 1`), so later errors are silently suppressed;
with `ms > 0` it succeeds and suspends the run.  The positive half matches
the claim; the non-positive half contradicts it, and the code contradicts
its own logged error message. -/
theorem delay_nonpositive_sets_suppression (env : Env) (st : ExecState) (ms : Int) :
    (ms ≤ 0 → execOne env st (mkSingleCmd .I2C_RIP_DELAY ms) =
      { s := { st with g_supressErrors := true }, error := false, events := [] }) ∧
    (0 < ms → execOne env st (mkSingleCmd .I2C_RIP_DELAY ms) =
      { s := st, error := false, events := [RunEvent.sleep (castCInt (ms * 1000))] }) := by
  constructor
  · intro h
    show (if ms ≤ 0 then _ else _) = _
    rw [if_pos h]
  · intro h
    show (if ms ≤ 0 then _ else _) = _
    rw [if_neg (by omega)]
    rfl

/-- Witness for C2's theorem at the concrete failing input `DELAY 0`. -/
theorem delay_nonpositive_sets_suppression_witness :
    execOne simEnv initState (mkSingleCmd .I2C_RIP_DELAY 0) =
      { s := { initState with g_supressErrors := true }, error := false, events := [] } :=
  (delay_nonpositive_sets_suppression simEnv initState 0).1 (by decide)

/-! ### C3: spelling of the suppression mnemonic -/

/-- Claim C3 counterexample: the claim says the line `SUPPRESS-ERRORS 1`
(double P) resolves against the command table; in fact the table's entry is
spelled `SUPRESS-ERRORS`, so the double-P line is an unknown-mnemonic hard
parse failure. -/
theorem parse_double_p_fails : parseLine "SUPPRESS-ERRORS 1" = none := by decide

/-- Claim C3 amended: the single-P spelling `SUPRESS-ERRORS 1`, as the
command table and the repository's example script spell it, parses to a
valid one-argument suppression command. -/
theorem parse_single_p_resolves :
    parseLine "SUPRESS-ERRORS 1" =
      some { m_cmd := .I2C_RIP_SUPRESS_ERRORS,
             m_data := { m_single := 1, m_addr := 0, m_data := 0 },
             m_isValid := true } := by decide

/-! ### C5: process exit status -/

/-- Claim C5 counterexample: the claim says the exit status is nonzero on a
load failure or a user abort.  In fact `main` calls `EXIT(0)` on both paths:
a script whose single line fails to parse exits with status 0, and a
declined confirmation prompt exits with status 0. -/
theorem main_exit_zero_on_failure :
    inputFileParser ["BOGUS 1"] = none ∧
    mainRun simEnv ["BOGUS 1"] true true = (0, none) ∧
    mainRun simEnv ["DELAY 5"] false false = (0, none) := by
  refine ⟨by decide, ?_, ?_⟩ <;> decide

/-- Claim C5 amended: every path of `main` after option handling exits with
status 0 - on success, on load failure and on user abort alike (the run's
pass/fail is only reported as the trailing `Exiting:` log line; a nonzero
status arises only from the usage/`help` path, which exits 1). -/
theorem main_exit_always_zero (env : Env) (ls : List String) (yes ack : Bool) :
    (mainRun env ls yes ack).1 = 0 := by
  cases h : inputFileParser ls with
  | none => simp [mainRun, h]
  | some cmds =>
    by_cases hy : yes = false ∧ ack = false
    · simp [mainRun, h, hy]
    · simp [mainRun, h, hy]

/-! ### C7: state prechecks of the I/O commands -/

theorem execOne_eq_execIoCmd (env : Env) (st : ExecState) (c : i2cRipCmdStruct)
    (h : isIoCmd c.m_cmd = true) :
    execOne env st c = execIoCmd env st c.m_cmd c.m_data := by
  cases hc : c.m_cmd <;> simp [isIoCmd, ioShape, hc] at h <;> simp only [execOne, hc]

theorem execIoCmd_stateError (env : Env) (st : ExecState) (cmd : i2cRipCmds)
    (d : i2cRipCmdData)
    (h : st.activeBus < 0 ∨ I2C_MAX_BUSSES ≤ st.activeBus ∨
      (activeConn st).m_isConnected = false ∨
      (activeConn st).m_slaveAddress = I2C_INVALID_SLAVE_ADDRESS) :
    execIoCmd env st cmd d = { s := st, error := true, events := [] } := by
  unfold execIoCmd
  split_ifs with h1 h2 h3
  · rfl
  · rfl
  · rfl
  · rcases h with h | h | h | h
    · exact absurd (Or.inl h) h1
    · exact absurd (Or.inr h) h1
    · exact absurd h h2
    · exact absurd h h3

/-- Claim C7: executing any Read/Write/Verify command when no bus is active
(active index out of range, including the initial -1), or the active bus is
not connected, or its slave address is the invalid sentinel, sets the
per-command error, leaves the state unchanged, and emits no transport call
whatsoever - the prechecks run before any `i2cRead`/`i2cWrite` dispatch. -/
theorem io_state_error_no_transport (env : Env) (st : ExecState) (c : i2cRipCmdStruct)
    (hio : isIoCmd c.m_cmd = true)
    (h : st.activeBus < 0 ∨ I2C_MAX_BUSSES ≤ st.activeBus ∨
      (activeConn st).m_isConnected = false ∨
      (activeConn st).m_slaveAddress = I2C_INVALID_SLAVE_ADDRESS) :
    execOne env st c = { s := st, error := true, events := [] } := by
  rw [execOne_eq_execIoCmd env st c hio]
  exact execIoCmd_stateError env st c.m_cmd c.m_data h

/-- Witness for C7 at a concrete input: a read command in the initial state
(no bus ever selected) errors with an empty event trace. -/
theorem io_state_error_no_transport_witness :
    execOne simEnv initState
        { m_cmd := .I2C_RIP_8_READ_BYTE, m_data := { m_addr := 0x12 }, m_isValid := true } =
      { s := initState, error := true, events := [] } :=
  io_state_error_no_transport simEnv initState
    { m_cmd := .I2C_RIP_8_READ_BYTE, m_data := { m_addr := 0x12 }, m_isValid := true }
    (by decide) (Or.inl (by decide))

/-! ### C6: the error-suppression policy of the command loop -/

theorem runCount_pos (env : Env) (st : ExecState) (c : i2cRipCmdStruct)
    (cs : List i2cRipCmdStruct) : 1 ≤ runCount env st (c :: cs) := by
  unfold runCount
  split <;> omega

/-- Claim C6: if the loop reaches position `i` (no earlier position stopped
it) and the command there errors, then with suppression off in the
post-command state exactly the commands `0..i` have been executed and
nothing after `i` runs, while with suppression on the loop continues into
command `i+1`.  `runCount` is the number of commands executed; the flag is
the one the source samples, i.e. after the command at `i` ran. -/
theorem run_error_policy (env : Env) (st : ExecState) (L : List i2cRipCmdStruct)
    (i : Nat) (hi : i < L.length)
    (hprev : ∀ j, j < i → ¬ stopsAt env st L j)
    (herr : (stepAt env st L i).error = true) :
    ((stepAt env st L i).s.g_supressErrors = false → runCount env st L = i + 1) ∧
    ((stepAt env st L i).s.g_supressErrors = true → i + 1 < L.length →
      i + 2 ≤ runCount env st L) := by
  induction L generalizing st i with
  | nil => exact absurd hi (by simp)
  | cons c cs ih =>
    cases i with
    | zero =>
      have herr2 : (execOne env st c).error = true := herr
      constructor
      · intro hsup
        have hsup2 : (execOne env st c).s.g_supressErrors = false := hsup
        unfold runCount
        rw [if_pos ⟨herr2, hsup2⟩]
      · intro hsup hlen
        have hsup2 : (execOne env st c).s.g_supressErrors = true := hsup
        unfold runCount
        rw [if_neg fun hh => by rw [hh.2] at hsup2; exact absurd hsup2 (by simp)]
        cases cs with
        | nil => simp at hlen
        | cons c2 cs2 =>
          have := runCount_pos env (execOne env st c).s c2 cs2
          omega
    | succ i =>
      have h0 : ¬ ((execOne env st c).error = true ∧
          (execOne env st c).s.g_supressErrors = false) := hprev 0 (Nat.succ_pos i)
      have hrc : runCount env st (c :: cs) =
          1 + runCount env (execOne env st c).s cs := by
        conv_lhs => unfold runCount
        rw [if_neg h0]
      have IH := ih (execOne env st c).s i (by simpa using hi)
        (fun j hj => hprev (j + 1) (by omega)) herr
      constructor
      · intro hsup
        rw [hrc, IH.1 hsup]
        omega
      · intro hsup hlen
        have h2 := IH.2 hsup (by simpa using hlen)
        rw [hrc]
        omega

/-- Witness for C6 at concrete inputs: a two-command script whose first
command (`SET-BUS 99`, out of range) errors stops after one command when
suppression is off, and executes both commands when suppression is on. -/
theorem run_error_policy_witness :
    runCount simEnv initState
        [mkSingleCmd .I2C_RIP_SET_BUS 99, mkSingleCmd .I2C_RIP_DELAY 5] = 1 ∧
    2 ≤ runCount simEnv { initState with g_supressErrors := true }
        [mkSingleCmd .I2C_RIP_SET_BUS 99, mkSingleCmd .I2C_RIP_DELAY 5] :=
  ⟨(run_error_policy simEnv initState
      [mkSingleCmd .I2C_RIP_SET_BUS 99, mkSingleCmd .I2C_RIP_DELAY 5] 0 (by decide)
      (fun j hj => absurd hj (Nat.not_lt_zero j)) (by decide)).1 (by decide),
   (run_error_policy simEnv { initState with g_supressErrors := true }
      [mkSingleCmd .I2C_RIP_SET_BUS 99, mkSingleCmd .I2C_RIP_DELAY 5] 0 (by decide)
      (fun j hj => absurd hj (Nat.not_lt_zero j)) (by decide)).2 (by decide) (by decide)⟩

/-! ### C9: SET-ID truncation and the 0xFF sentinel -/

/-- Claim C9: `SET-ID` stores its address truncated to the low 8 bits of the
`int` argument, and 0xFF doubles as the internal no-slave-address sentinel:
whenever the slave-selection transport call reports success (it always does
in simulate mode) and the truncated byte is 0xFF, the command itself
succeeds, yet the active bus is left holding the sentinel, so any subsequent
I/O command fails the invalid-slave-address precheck without touching the
transport. -/
theorem setid_ff_sentinel (env : Env) (st : ExecState) (a : Int) (c : i2cRipCmdStruct)
    (hok : set_slave_addr_If env (activeConn st).m_file a = 0)
    (hlen : st.g_i2cBusFiles.length = 64)
    (hb0 : 0 ≤ st.activeBus) (hb1 : st.activeBus < I2C_MAX_BUSSES)
    (hconn : (activeConn st).m_isConnected = true)
    (ha : u8OfInt a = 0xFF)
    (hio : isIoCmd c.m_cmd = true) :
    (execOne env st (mkSingleCmd .I2C_RIP_SET_ID a)).error = false ∧
    (activeConn (execOne env st (mkSingleCmd .I2C_RIP_SET_ID a)).s).m_slaveAddress =
      I2C_INVALID_SLAVE_ADDRESS ∧
    execOne env (execOne env st (mkSingleCmd .I2C_RIP_SET_ID a)).s c =
      { s := (execOne env st (mkSingleCmd .I2C_RIP_SET_ID a)).s,
        error := true, events := [] } := by
  have hb1x : st.activeBus < (64 : Int) := hb1
  have hb : ¬ (st.activeBus < 0 ∨ I2C_MAX_BUSSES ≤ st.activeBus) := by
    unfold I2C_MAX_BUSSES
    omega
  have hc2 : ¬ ((activeConn st).m_isConnected = false) := by simp [hconn]
  have hslv : ¬ (set_slave_addr_If env (activeConn st).m_file
      (mkSingleCmd .I2C_RIP_SET_ID a).m_data.m_single ≠ 0) := by
    simp [mkSingleCmd, hok]
  have hres : execOne env st (mkSingleCmd .I2C_RIP_SET_ID a) =
      { s := writeSlave st (u8OfInt a), error := false,
        events := [RunEvent.setSlave (activeConn st).m_file a] } := by
    show execSetId env st (mkSingleCmd .I2C_RIP_SET_ID a).m_data = _
    unfold execSetId
    rw [if_neg hb, if_neg hc2, if_neg hslv]
    rfl
  have hidx : st.activeBus.toNat < st.g_i2cBusFiles.length := by
    rw [hlen]
    omega
  have hactv : activeConn (writeSlave st (u8OfInt a)) =
      { activeConn st with m_slaveAddress := u8OfInt a } := by
    unfold activeConn writeSlave
    exact getD_set_self st.g_i2cBusFiles st.activeBus.toNat _ {} hidx
  have hsent : (activeConn (writeSlave st (u8OfInt a))).m_slaveAddress =
      I2C_INVALID_SLAVE_ADDRESS := by
    rw [hactv]
    exact ha
  refine ⟨by rw [hres], by rw [hres]; exact hsent, ?_⟩
  rw [hres]
  rw [execOne_eq_execIoCmd env (writeSlave st (u8OfInt a)) c hio]
  exact execIoCmd_stateError env _ c.m_cmd c.m_data (Or.inr (Or.inr (Or.inr hsent)))

/-- Witness for C9 at a concrete input: in simulate mode, from a state with
bus 1 open and active, `SET-ID 0x1FF` succeeds, stores 0xFF, and a following
`RB-8 0x12` errors with no transport events. -/
theorem setid_ff_sentinel_witness :
    (execOne simEnv stBus1 (mkSingleCmd .I2C_RIP_SET_ID 0x1FF)).error = false ∧
    (activeConn (execOne simEnv stBus1 (mkSingleCmd .I2C_RIP_SET_ID 0x1FF)).s).m_slaveAddress =
      I2C_INVALID_SLAVE_ADDRESS ∧
    execOne simEnv (execOne simEnv stBus1 (mkSingleCmd .I2C_RIP_SET_ID 0x1FF)).s
        { m_cmd := .I2C_RIP_8_READ_BYTE, m_data := { m_addr := 0x12 }, m_isValid := true } =
      { s := (execOne simEnv stBus1 (mkSingleCmd .I2C_RIP_SET_ID 0x1FF)).s,
        error := true, events := [] } :=
  setid_ff_sentinel simEnv stBus1 0x1FF
    { m_cmd := .I2C_RIP_8_READ_BYTE, m_data := { m_addr := 0x12 }, m_isValid := true }
    (by decide) (by decide) (by decide) (by decide) (by decide) (by decide) (by decide)

/-! ### C10: Verify always succeeds in simulate mode -/

theorem isVerifyCmd_isIoCmd (cmd : i2cRipCmds) (h : isVerifyCmd cmd = true) :
    isIoCmd cmd = true := by
  cases cmd <;> simp [isVerifyCmd] at h <;> rfl

/-- Claim C10: in simulate mode every Verify command whose state prechecks
pass succeeds regardless of any register state: `main` pre-fills the read
buffer with the expected bytes taken from the command, the simulated
`ioCtlRdwrIf` reports success without touching that buffer, and the
byte-wise `memcmp` therefore always matches.  The command neither errors nor
changes the execution state. -/
theorem simulate_verify_always_ok (env : Env) (st : ExecState) (c : i2cRipCmdStruct)
    (hsim : env.simulate = true)
    (hver : isVerifyCmd c.m_cmd = true)
    (hb0 : 0 ≤ st.activeBus) (hb1 : st.activeBus < I2C_MAX_BUSSES)
    (hconn : (activeConn st).m_isConnected = true)
    (hsne : (activeConn st).m_slaveAddress ≠ I2C_INVALID_SLAVE_ADDRESS)
    (hs8 : (activeConn st).m_slaveAddress < 256) :
    (execOne env st c).error = false ∧ (execOne env st c).s = st := by
  have hb1x : st.activeBus < (64 : Int) := hb1
  have hb : ¬ (st.activeBus < 0 ∨ I2C_MAX_BUSSES ≤ st.activeBus) := by
    unfold I2C_MAX_BUSSES
    omega
  have hc2 : ¬ ((activeConn st).m_isConnected = false) := by simp [hconn]
  have hregZ : ¬ (((activeConn st).m_slaveAddress : Int) < 0) := by omega
  have hregN : ¬ (255 < (activeConn st).m_slaveAddress) := by omega
  rw [execOne_eq_execIoCmd env st c (isVerifyCmd_isIoCmd c.m_cmd hver)]
  unfold execIoCmd
  rw [if_neg hb, if_neg hc2, if_neg hsne]
  cases hc : c.m_cmd <;> simp [isVerifyCmd, hc] at hver <;>
    simp [execIoBody, ioShape, MAX_READ_WRITE_SIZE, i2cRead, hsim, hregZ, hregN]

/-- Witness for C10 at a concrete input: a `VW-16 0x1234 0xABCD` command
succeeds in simulate mode from a state with bus 1 open and slave 0x50. -/
theorem simulate_verify_always_ok_witness :
    (execOne simEnv stBus1Slave
        { m_cmd := .I2C_RIP_16_VERIFY_WORD,
          m_data := { m_addr := 0x1234, m_data := 0xABCD }, m_isValid := true }).error = false ∧
    (execOne simEnv stBus1Slave
        { m_cmd := .I2C_RIP_16_VERIFY_WORD,
          m_data := { m_addr := 0x1234, m_data := 0xABCD }, m_isValid := true }).s =
      stBus1Slave :=
  simulate_verify_always_ok simEnv stBus1Slave
    { m_cmd := .I2C_RIP_16_VERIFY_WORD,
      m_data := { m_addr := 0x1234, m_data := 0xABCD }, m_isValid := true }
    (by decide) (by decide) (by decide) (by decide) (by decide) (by decide) (by decide)

/-! ### C4: numeric arguments are truncated, not range-checked -/

/-- Claim C4 counterexample: the claim says an argument that does not fit
the resolved command's destination field is a hard parse failure and no
command is constructed with a truncated value.  In fact `WB-8 0x1FF 0x12`
parses successfully, storing the register address truncated through the
`(__u8)` cast to 0xFF. -/
theorem parse_wb8_truncates :
    parseLine "WB-8 0x1FF 0x12" =
      some { m_cmd := .I2C_RIP_8_WRITE_BYTE,
             m_data := { m_single := 0, m_addr := 0xFF, m_data := 0x12 },
             m_isValid := true } := by decide

theorem u16OfNat_u8OfInt (n : Int) : u16OfNat (u8OfInt n) = u8OfInt n :=
  Nat.mod_eq_of_lt (lt_trans (u8OfInt_lt n) (by omega))

theorem u8OfNat_u16OfInt_lt (n : Int) : u8OfNat (u16OfInt n) < 256 := u8OfNat_lt _

theorem applyArg0_bounds (cmd : i2cRipCmds) (num : Int) (d d2 : i2cRipCmdData)
    (h : applyArg0 cmd num d = some d2)
    (ha : d.m_addr < addrFieldBound cmd) (hd : d.m_data < dataFieldBound cmd) :
    d2.m_addr < addrFieldBound cmd ∧ d2.m_data < dataFieldBound cmd := by
  cases cmd <;> simp [applyArg0] at h <;> subst h <;>
    simp_all [addrFieldBound, dataFieldBound, u8OfInt_lt, u16OfInt_lt,
      u8OfNat_u16OfInt_lt, u16OfNat_u8OfInt]

theorem applyArg1_bounds (cmd : i2cRipCmds) (num : Int) (d d2 : i2cRipCmdData)
    (h : applyArg1 cmd num d = some d2)
    (ha : d.m_addr < addrFieldBound cmd) (hd : d.m_data < dataFieldBound cmd) :
    d2.m_addr < addrFieldBound cmd ∧ d2.m_data < dataFieldBound cmd := by
  cases cmd <;> simp [applyArg1] at h <;> subst h <;>
    simp_all [addrFieldBound, dataFieldBound, u8OfInt_lt, u16OfInt_lt]

theorem applyArg_bounds (cmd : i2cRipCmds) (argNum : Nat) (num : Int)
    (d d2 : i2cRipCmdData) (h : applyArg cmd argNum num d = some d2)
    (ha : d.m_addr < addrFieldBound cmd) (hd : d.m_data < dataFieldBound cmd) :
    d2.m_addr < addrFieldBound cmd ∧ d2.m_data < dataFieldBound cmd := by
  match argNum, h with
  | 0, h => exact applyArg0_bounds cmd num d d2 h ha hd
  | 1, h => exact applyArg1_bounds cmd num d d2 h ha hd
  | n + 2, h => exact absurd h (by simp [applyArg])

theorem parseArgs_bounds (cmd : i2cRipCmds) (ts : List String) :
    ∀ (argNum : Nat) (d : i2cRipCmdData) (res : Nat × i2cRipCmdData),
      parseArgs cmd ts argNum d = some res →
      d.m_addr < addrFieldBound cmd → d.m_data < dataFieldBound cmd →
      res.2.m_addr < addrFieldBound cmd ∧ res.2.m_data < dataFieldBound cmd := by
  induction ts with
  | nil =>
    intro argNum d res h ha hd
    simp only [parseArgs, Option.some.injEq] at h
    rw [← h]
    exact ⟨ha, hd⟩
  | cons t ts ih =>
    intro argNum d res h ha hd
    simp only [parseArgs] at h
    by_cases hl : 20 ≤ t.length
    · rw [if_pos hl] at h
      exact absurd h (by simp)
    · rw [if_neg hl] at h
      cases hn : parseNumber t with
      | none => simp [hn] at h
      | some num =>
        simp only [hn] at h
        cases hap : applyArg cmd argNum num d with
        | none => simp [hap] at h
        | some dnext =>
          simp only [hap] at h
          have hbnd := applyArg_bounds cmd argNum num d dnext hap ha hd
          exact ih (argNum + 1) dnext res h hbnd.1 hbnd.2

theorem addrFieldBound_pos (cmd : i2cRipCmds) : 0 < addrFieldBound cmd := by
  cases cmd <;> decide

theorem dataFieldBound_pos (cmd : i2cRipCmds) : 0 < dataFieldBound cmd := by
  cases cmd <;> decide

/-- Claim C4 amended: the parser never rejects a numeric argument for being
out of range; instead every constructed command's stored fields are the
truncations the source's casts produce - within `addrFieldBound` (8 bits for
all commands except the 16-bit-address word commands, whose address keeps 16
bits; the 16-bit-address byte commands lose their high address byte to a
mismatched `(__u8)` cast) and `dataFieldBound` (8 bits for byte data, 16
bits for word data). -/
theorem parse_fields_truncated (l : String) (c : i2cRipCmdStruct)
    (h : parseLine l = some c) :
    c.m_data.m_addr < addrFieldBound c.m_cmd ∧
    c.m_data.m_data < dataFieldBound c.m_cmd := by
  unfold parseLine at h
  cases htok : tokenize l with
  | nil =>
    simp only [htok, Option.some.injEq] at h
    rw [← h]
    decide
  | cons t ts =>
    simp only [htok] at h
    by_cases hl : 20 ≤ t.length
    · rw [if_pos hl] at h
      exact absurd h (by simp)
    · rw [if_neg hl] at h
      cases hlk : lookUpCmd t with
      | none => simp [hlk] at h
      | some e =>
        simp only [hlk] at h
        cases hpa : parseArgs e.m_cmd ts 0 {} with
        | none => simp [hpa] at h
        | some res =>
          simp only [hpa] at h
          by_cases harg : res.1 = e.m_numArgs
          · have hbnd := parseArgs_bounds e.m_cmd ts 0 {} res hpa
              (addrFieldBound_pos e.m_cmd) (dataFieldBound_pos e.m_cmd)
            cases hres : res with
            | mk argNum d =>
              rw [hres] at h harg
              rw [if_pos harg] at h
              simp only [Option.some.injEq] at h
              rw [← h]
              rw [hres] at hbnd
              exact hbnd
          · cases hres : res with
            | mk argNum d =>
              rw [hres] at h harg
              rw [if_neg harg] at h
              exact absurd h (by simp)

/-- Witness for C4's amended theorem at a concrete parse. -/
theorem parse_fields_truncated_witness :
    (0x1234 : Nat) < addrFieldBound .I2C_RIP_16_WRITE_WORD ∧
    (0x5678 : Nat) < dataFieldBound .I2C_RIP_16_WRITE_WORD :=
  parse_fields_truncated "WW-16 0x1234 0x5678"
    { m_cmd := .I2C_RIP_16_WRITE_WORD,
      m_data := { m_single := 0, m_addr := 0x1234, m_data := 0x5678 },
      m_isValid := true } (by decide)

/-! ### C8: the two-pass loader -/

theorem lookUpCmd_ne_invalid (t : String) (e : i2cRipCmdsLookUp)
    (h : lookUpCmd t = some e) : e.m_cmd ≠ .I2C_RIP_INVALID := by
  have hm : e ∈ g_cmdLookUpTable := List.mem_of_find?_eq_some h
  have hall : ∀ x ∈ g_cmdLookUpTable, x.m_cmd ≠ i2cRipCmds.I2C_RIP_INVALID := by decide
  exact hall e hm

/-- A line that parses contributes a command exactly when its first token
resolves against the command table. -/
theorem lineYieldsCmd_eq (l : String) (c : i2cRipCmdStruct) (h : parseLine l = some c) :
    lineYieldsCmd l = resolvesKnownMnemonic l := by
  have h2 := h
  unfold parseLine at h2
  cases htok : tokenize l with
  | nil =>
    simp only [htok, Option.some.injEq] at h2
    subst h2
    simp [lineYieldsCmd, resolvesKnownMnemonic, h, htok]
  | cons t ts =>
    simp only [htok] at h2
    by_cases hl : 20 ≤ t.length
    · rw [if_pos hl] at h2
      exact absurd h2 (by simp)
    · rw [if_neg hl] at h2
      cases hlk : lookUpCmd t with
      | none => simp [hlk] at h2
      | some e =>
        simp only [hlk] at h2
        cases hpa : parseArgs e.m_cmd ts 0 {} with
        | none => simp [hpa] at h2
        | some res =>
          obtain ⟨argNum, d⟩ := res
          simp only [hpa] at h2
          by_cases harg : argNum = e.m_numArgs
          · rw [if_pos harg] at h2
            simp only [Option.some.injEq] at h2
            subst h2
            simp [lineYieldsCmd, resolvesKnownMnemonic, h, htok, hlk,
              lookUpCmd_ne_invalid t e hlk]
          · rw [if_neg harg] at h2
            exact absurd h2 (by simp)

theorem countP_congr_aux {α : Type} (p q : α → Bool) :
    ∀ l : List α, (∀ a ∈ l, p a = q a) → l.countP p = l.countP q := by
  intro l
  induction l with
  | nil => intro _; rfl
  | cons a l ih =>
    intro h
    rw [List.countP_cons, List.countP_cons, h a (by simp),
      ih (fun b hb => h b (by simp [hb]))]

theorem validCmds_length (ls : List String) :
    (validCmds ls).length = ls.countP lineYieldsCmd := by
  induction ls with
  | nil => rfl
  | cons l ls ih =>
    rw [List.countP_cons]
    cases hp : parseLine l with
    | none =>
      have hcons : validCmds (l :: ls) = validCmds ls := by
        unfold validCmds
        rw [List.filterMap_cons]
        simp [hp]
      have hly : lineYieldsCmd l = false := by simp [lineYieldsCmd, hp]
      rw [hcons, hly, ih]
      simp
    | some c =>
      have hly : lineYieldsCmd l = c.m_isValid := by simp [lineYieldsCmd, hp]
      cases hv : c.m_isValid with
      | false =>
        have hcons : validCmds (l :: ls) = validCmds ls := by
          unfold validCmds
          rw [List.filterMap_cons]
          simp [hp, hv]
        rw [hcons, hly, hv, ih]
        simp
      | true =>
        have hcons : validCmds (l :: ls) = c :: validCmds ls := by
          unfold validCmds
          rw [List.filterMap_cons]
          simp [hp, hv]
        rw [hcons, hly, hv]
        simp [ih]

theorem pass1_ok : ∀ (ls : List String) (idx : Nat),
    (∀ l ∈ ls, l.length < 100 ∧ (parseLine l).isSome) →
    idx + ls.length ≤ 100000 →
    pass1 ls idx = some (ls.countP lineYieldsCmd) := by
  intro ls
  induction ls with
  | nil => intro idx _ _; rfl
  | cons l ls ih =>
    intro idx h hcap
    obtain ⟨hlen, hps⟩ := h l (by simp)
    unfold pass1
    rw [if_neg (by omega)]
    cases hp : parseLine l with
    | none => rw [hp] at hps; simp at hps
    | some c =>
      simp only [hp]
      rw [if_neg (by simp at hcap; omega : ¬ 100000 ≤ idx)]
      rw [ih (idx + 1) (fun x hx => h x (by simp [hx])) (by simp at hcap ⊢; omega)]
      have hly : lineYieldsCmd l = c.m_isValid := by simp [lineYieldsCmd, hp]
      cases hv : c.m_isValid <;> (simp [List.countP_cons, hly, hv]; try omega)

theorem pass2_ok : ∀ (ls : List String) (n : Nat),
    (∀ l ∈ ls, l.length < 100 ∧ (parseLine l).isSome) →
    ls.countP lineYieldsCmd ≤ n →
    pass2 ls n = some (validCmds ls) := by
  intro ls
  induction ls with
  | nil => intro n _ _; cases n <;> rfl
  | cons l ls ih =>
    intro n h hc
    obtain ⟨hlen, hps⟩ := h l (by simp)
    cases hp : parseLine l with
    | none => rw [hp] at hps; simp at hps
    | some c =>
      have hly : lineYieldsCmd l = c.m_isValid := by simp [lineYieldsCmd, hp]
      cases hv : c.m_isValid with
      | true =>
        have hcount : ls.countP lineYieldsCmd + 1 ≤ n := by
          rw [List.countP_cons, hly, hv] at hc
          simpa using hc
        cases n with
        | zero => omega
        | succ m =>
          have hcons : validCmds (l :: ls) = c :: validCmds ls := by
            unfold validCmds
            rw [List.filterMap_cons]
            simp [hp, hv]
          unfold pass2
          rw [if_neg (by omega)]
          simp only [hp, hv, if_true]
          rw [ih m (fun x hx => h x (by simp [hx])) (by omega), hcons]
          rfl
      | false =>
        have hcount : ls.countP lineYieldsCmd ≤ n := by
          rw [List.countP_cons, hly, hv] at hc
          simpa using hc
        have hcons : validCmds (l :: ls) = validCmds ls := by
          unfold validCmds
          rw [List.filterMap_cons]
          simp [hp, hv]
        cases n with
        | zero =>
          have hzero : ls.countP lineYieldsCmd = 0 := by omega
          have hnil : validCmds ls = [] :=
            List.length_eq_zero.mp (by rw [validCmds_length, hzero])
          rw [hcons, hnil]
          rfl
        | succ m =>
          unfold pass2
          rw [if_neg (by omega)]
          simp only [hp, hv]
          rw [if_neg (by simp)]
          rw [ih (m + 1) (fun x hx => h x (by simp [hx])) hcount, hcons]

theorem pass1_none : ∀ (ls : List String) (idx : Nat),
    (∃ l ∈ ls, parseLine l = none) → pass1 ls idx = none := by
  intro ls
  induction ls with
  | nil =>
    intro idx h
    obtain ⟨l, hl, _⟩ := h
    simp at hl
  | cons l ls ih =>
    intro idx h
    unfold pass1
    by_cases hlen : 100 ≤ l.length
    · rw [if_pos hlen]
    · rw [if_neg hlen]
      obtain ⟨x, hx, hpx⟩ := h
      cases List.mem_cons.mp hx with
      | inl heq =>
        subst heq
        simp [hpx]
      | inr hmem =>
        cases hp : parseLine l with
        | none => simp
        | some c =>
          simp only [hp]
          by_cases hcap : 100000 ≤ idx
          · rw [if_pos hcap]
          · rw [if_neg hcap]
            rw [ih (idx + 1) ⟨x, hmem, hpx⟩]
            rfl

/-- Claim C8: for every script (modelled as its nonempty `getLine` sequence,
within the loader's 100000-line bound) in which every line fits the buffer
and parses, the two-pass loader succeeds and produces exactly the commands
the lines denote, in script order; the resulting length equals the number of
lines that yield a command, which equals the number of lines whose first
token resolves to a known mnemonic (blank lines parse but contribute none).
And whenever any line fails to parse, the whole load fails with no commands
loaded. -/
theorem loader_spec (ls : List String) :
    ((∀ l ∈ ls, l.length < 100 ∧ (parseLine l).isSome) → ls ≠ [] →
      ls.length ≤ 100000 →
      inputFileParser ls = some (validCmds ls) ∧
      (validCmds ls).length = ls.countP lineYieldsCmd ∧
      (validCmds ls).length = ls.countP resolvesKnownMnemonic) ∧
    ((∃ l ∈ ls, parseLine l = none) → inputFileParser ls = none) := by
  constructor
  · intro hall hne hcap
    have h1 : pass1 ls 0 = some (ls.countP lineYieldsCmd) :=
      pass1_ok ls 0 hall (by omega)
    have h2 : pass2 ls (ls.countP lineYieldsCmd) = some (validCmds ls) :=
      pass2_ok ls _ hall le_rfl
    refine ⟨?_, validCmds_length ls, ?_⟩
    · unfold inputFileParser
      simp only [h1]
      rw [if_neg (fun hz => hne (List.length_eq_zero.mp hz))]
      exact h2
    · rw [validCmds_length ls]
      refine countP_congr_aux _ _ ls (fun l hl => ?_)
      obtain ⟨c, hc⟩ := Option.isSome_iff_exists.mp (hall l hl).2
      exact lineYieldsCmd_eq l c hc
  · intro hex
    unfold inputFileParser
    rw [pass1_none ls 0 hex]

/-- Witness for C8 at concrete scripts: a three-line script (one blank line)
loads to its two commands in order, and a script with an unknown mnemonic
fails to load. -/
theorem loader_spec_witness :
    inputFileParser ["SET-BUS 1", "", "WB-8 0x12 0x34"] =
      some (validCmds ["SET-BUS 1", "", "WB-8 0x12 0x34"]) ∧
    (validCmds ["SET-BUS 1", "", "WB-8 0x12 0x34"]).length =
      ["SET-BUS 1", "", "WB-8 0x12 0x34"].countP resolvesKnownMnemonic ∧
    inputFileParser ["SET-BUS 1", "BOGUS"] = none :=
  ⟨((loader_spec ["SET-BUS 1", "", "WB-8 0x12 0x34"]).1 (by decide) (by decide)
      (by decide)).1,
   ((loader_spec ["SET-BUS 1", "", "WB-8 0x12 0x34"]).1 (by decide) (by decide)
      (by decide)).2.2,
   (loader_spec ["SET-BUS 1", "BOGUS"]).2 ⟨"BOGUS", by decide, by decide⟩⟩

end I2cRip
